import Mathlib

/-!
Verification of the car-search MCP subsystem.

This file embeds, as executable Lean definitions, the pure logic of:
- the LLM filter normalizer (`apps/terminal_agent/llm_interface.py`:
  `_normalize_llm_filters`, `_convert_preferences_to_filters`),
- the terminal agent's conversation turn decision
  (`apps/terminal_agent/management/commands/run_car_agent.py`:
  `_has_sufficient_info`, `_get_missing_info`, `_process_user_input`),
- the WebSocket MCP gateway (`apps/web_sockets/mcp_consumer.py`:
  `_handle_mcp_request`, `_add_to_search_history`;
  `apps/web_sockets/mcp_handlers.py`: `MCPHandler.handle_request`,
  `CarMCPHandler.handle_search_cars`, `_apply_filters`), and
- the request serializers (`apps/web_sockets/serializers.py`:
  `MCPRequestSerializer`, `SearchCarsRequestSerializer`,
  `CarFilterSerializer`, `PaginationSerializer`).

JSON data is modelled by the `JVal` inductive; Python dicts are modelled as
insertion-ordered association lists (`Dict`) with Python's update semantics
(`dictSet` updates in place keeping the position of an existing key, and
appends otherwise).  Timestamps, logging and the database connection are
outside the embedding: the catalog store is passed in as an explicit
`List Car`, and clock-derived values (generated request ids, entry
timestamps) are passed as parameters.  JSON floating point literals are not
modelled (`jint` covers the integral numbers the claims are about), and
DRF's coercion of ints/floats to strings in `CharField` is not modelled:
string-typed fields accept strings (plus `null` where `allow_null` is set).
-/

/-- A JSON-like Python value as it appears in MCP payloads. -/
inductive JVal where
  | jnull : JVal
  | jbool : Bool → JVal
  | jint : Int → JVal
  | jstr : String → JVal
  | jobj : List (String × JVal) → JVal

open JVal

/-- A Python dict with string keys, as an insertion-ordered association list. -/
abbrev Dict := List (String × JVal)

/-- `d.get(k)` — the first value stored under `k`, if any. -/
def dictGet : Dict → String → Option JVal
  | [], _ => none
  | p :: d, k => if p.1 = k then some p.2 else dictGet d k

/-- `d.get(k, v0)` — lookup with a default. -/
def dictGetD (d : Dict) (k : String) (v0 : JVal) : JVal :=
  (dictGet d k).getD v0

/-- `k in d`. -/
def dictHas : Dict → String → Bool
  | [], _ => false
  | p :: d, k => if p.1 = k then true else dictHas d k

/-- `d[k] = v` — Python dict assignment: replaces the value in place when the
key exists (keeping its position), appends a new entry otherwise. -/
def dictSet (d : Dict) (k : String) (v : JVal) : Dict :=
  if dictHas d k then d.map (fun p => if p.1 = k then (k, v) else p)
  else d ++ [(k, v)]

/-- Removal of a key (used only to state "this filter key is ignored"). -/
def dictRemove (d : Dict) (k : String) : Dict :=
  d.filter (fun p => !(decide (p.1 = k)))

/-- `v is None`. -/
def isNull : JVal → Bool
  | jnull => true
  | _ => false

/-- Python `v == s` for a string literal `s` (false on non-strings). -/
def eqStr (v : JVal) (s : String) : Bool :=
  match v with
  | jstr t => t == s
  | _ => false

/-- Python truthiness of a `JVal` (`bool(v)`). -/
def pyTruthy : JVal → Bool
  | jnull => false
  | jbool b => b
  | jint n => !(n == 0)
  | jstr s => !(s == "")
  | jobj fs => !fs.isEmpty

/-- Value of a nonempty all-digit character sequence, `none` otherwise. -/
def digitsVal (cs : List Char) : Option Nat :=
  if cs.isEmpty then none
  else cs.foldl
    (fun acc c =>
      match acc with
      | none => none
      | some n => if c.isDigit then some (n * 10 + (c.toNat - 48)) else none)
    (some 0)

/-- Python `int(s)` on a string: surrounding whitespace is stripped, then an
optional sign followed by decimal digits is accepted. -/
def pyStrToInt (s : String) : Option Int :=
  let cs := ((s.toList.dropWhile Char.isWhitespace).reverse.dropWhile
    Char.isWhitespace).reverse
  match cs with
  | '-' :: rest => (digitsVal rest).map (fun n => -(n : Int))
  | '+' :: rest => (digitsVal rest).map (fun n => (n : Int))
  | rest => (digitsVal rest).map (fun n => (n : Int))

/-- Python `int(v)`: ints are kept, bools become 0/1, strings are parsed as
(optionally signed) decimal integers; everything else raises, modelled as
`none`. -/
def pyInt : JVal → Option Int
  | jint n => some n
  | jbool b => some (if b then 1 else 0)
  | jstr s => pyStrToInt s
  | _ => none

theorem dictGet_dictSet_self (d : Dict) (k : String) (v : JVal) :
    dictGet (dictSet d k v) k = some v := by
  unfold dictSet
  split
  · rename_i h
    induction d with
    | nil => simp [dictHas] at h
    | cons p d ih =>
      by_cases hp : p.1 = k
      · simp [dictGet, hp]
      · simp only [dictHas, if_neg hp] at h
        simp [dictGet, hp, ih h]
  · rename_i h
    induction d with
    | nil => simp [dictGet]
    | cons p d ih =>
      simp only [dictHas] at h
      by_cases hp : p.1 = k
      · simp [hp] at h
      · simp only [if_neg hp] at h
        simp [dictGet, hp, ih h]

theorem dictGet_mapSet_ne (d : Dict) (k q : String) (v : JVal) (h : q ≠ k) :
    dictGet (d.map (fun p => if p.1 = k then (k, v) else p)) q = dictGet d q := by
  induction d with
  | nil => simp [dictGet]
  | cons p d ih =>
    by_cases hp : p.1 = k
    · have hpq : p.1 ≠ q := by rw [hp]; exact Ne.symm h
      simp [dictGet, hp, Ne.symm h, hpq, ih]
    · by_cases hq : p.1 = q
      · simp [dictGet, hp, hq, h]
      · simp [dictGet, hp, hq, ih]

theorem dictGet_append_single_ne (d : Dict) (k q : String) (v : JVal) (h : q ≠ k) :
    dictGet (d ++ [(k, v)]) q = dictGet d q := by
  induction d with
  | nil => simp [dictGet, Ne.symm h]
  | cons p d ih =>
    by_cases hq : p.1 = q
    · simp [dictGet, hq]
    · simp [dictGet, hq, ih]

theorem dictGet_dictSet_ne (d : Dict) (k q : String) (v : JVal) (h : q ≠ k) :
    dictGet (dictSet d k v) q = dictGet d q := by
  unfold dictSet
  split
  · exact dictGet_mapSet_ne d k q v h
  · exact dictGet_append_single_ne d k q v h

theorem dictGet_filter_of_ne_null (d : Dict) (k : String) (v : JVal)
    (h : dictGet d k = some v) (hv : isNull v = false) :
    dictGet (d.filter (fun p => !(isNull p.2))) k = some v := by
  induction d with
  | nil => simp [dictGet] at h
  | cons p d ih =>
    by_cases hp : p.1 = k
    · have hv2 : p.2 = v := by
        simp only [dictGet, if_pos hp] at h
        exact Option.some.inj h
      subst hv2
      simp [List.filter, hv, dictGet, hp]
    · simp only [dictGet, if_neg hp] at h
      cases hn : isNull p.2 with
      | true => simpa [List.filter, hn] using ih h
      | false => simpa [List.filter, hn, dictGet, hp] using ih h

/-!
## Filter Normalizer (`LLMInterface._normalize_llm_filters`)
-/

/-- The key synonym table of `_normalize_llm_filters` (`key_synonyms`). -/
def keySynonym (k : String) : String :=
  if k = "marca" then "brand_name"
  else if k = "brand" then "brand_name"
  else if k = "nome_marca" then "brand_name"
  else if k = "modelo" then "car_name"
  else if k = "nome_carro" then "car_name"
  else if k = "cor" then "color_name"
  else if k = "motor" then "engine_name"
  else if k = "combustivel" then "fuel_type"
  else if k = "transmissao" then "transmission"
  else if k = "preco_min" then "price_min"
  else if k = "preco_max" then "price_max"
  else if k = "ano_min" then "year_manufacture_min"
  else if k = "ano_max" then "year_manufacture_max"
  else if k = "quilometragem_min" then "mileage_min"
  else if k = "quilometragem_max" then "mileage_max"
  else if k = "portas" then "doors"
  else k

/-- The equality-operator markers checked by `strip_operator`, in order. -/
def eqOps : List String := ["$eq", "eq", "=", "value"]

/-- The range markers checked by `strip_operator`. -/
def rangeOps : List String := ["$gte", "gte", "min", "$lte", "lte", "max"]

/-- `strip_operator`: on a dict value, return the value under the first
equality marker present; otherwise the dict itself is returned (whether or
not range markers are present — both branches of the Python code return
`value`).  Non-dict values pass through unchanged. -/
def stripOperator (v : JVal) : JVal :=
  match v with
  | jobj w =>
      match (eqOps.filter (fun op => dictHas w op)).head? with
      | some op => dictGetD w op jnull
      | none => jobj w
  | _ => v

/-- The lower bound extracted from a range dict: `value.get("$gte",
value.get("gte"))` when either key is present, then `min` only if the result
is still `None`.  `jnull` plays the role of Python's `None`. -/
def lowerOf (w : Dict) : JVal :=
  let m1 :=
    if dictHas w "$gte" then dictGetD w "$gte" jnull
    else if dictHas w "gte" then dictGetD w "gte" jnull
    else jnull
  if dictHas w "min" ∧ isNull m1 then dictGetD w "min" jnull else m1

/-- The upper bound extracted from a range dict, mirroring `lowerOf` with
`$lte`/`lte`/`max`. -/
def upperOf (w : Dict) : JVal :=
  let m1 :=
    if dictHas w "$lte" then dictGetD w "$lte" jnull
    else if dictHas w "lte" then dictGetD w "lte" jnull
    else jnull
  if dictHas w "max" ∧ isNull m1 then dictGetD w "max" jnull else m1

/-- The range-capable attributes of the raw-payload path. -/
def rangeBases : List String := ["price", "year_manufacture", "mileage", "doors"]

/-- One iteration of the second loop of `_normalize_llm_filters`, processing
entry `p` of `temp` into the accumulator `normalized`. -/
def normStep (acc : Dict) (p : String × JVal) : Dict :=
  if isNull p.2 ∨ eqStr p.2 "" then acc
  else
    match p.2 with
    | jobj w =>
        let mn := lowerOf w
        let mx := upperOf w
        if p.1 ∈ rangeBases then
          let a1 := if isNull mn then acc else dictSet acc (p.1 ++ "_min") mn
          if isNull mx then a1 else dictSet a1 (p.1 ++ "_max") mx
        else
          match w with
          | [q] => dictSet acc p.1 q.2
          | _ => acc
    | v =>
        if p.1 = "doors" then
          match pyInt v with
          | some n =>
              dictSet (dictSet acc "doors_min" (jint n)) "doors_max" (jint n)
          | none => acc
        else if p.1 = "year" ∨ p.1 = "ano" then
          match pyInt v with
          | some n =>
              dictSet (dictSet (dictSet (dictSet acc
                "year_manufacture_min" (jint n))
                "year_manufacture_max" (jint n))
                "year_model_min" (jint n))
                "year_model_max" (jint n)
          | none => dictSet acc p.1 v
        else dictSet acc p.1 v

/-- `_normalize_llm_filters`: synonym remap and operator stripping into
`temp`, then per-entry range/scalar normalization, then removal of `None`
values.  (The Python guard returning `{}` on non-dict input is enforced by
the `Dict` type.) -/
def normalizeLLMFilters (raw : Dict) : Dict :=
  let temp := raw.foldl
    (fun acc q => dictSet acc (keySynonym q.1) (stripOperator q.2)) []
  let normalized := temp.foldl normStep []
  normalized.filter (fun p => !(isNull p.2))

example :
    normalizeLLMFilters [("price", jobj [("$gte", jint 30), ("$lte", jint 90)])]
      = [("price_min", jint 30), ("price_max", jint 90)] := by rfl

example :
    normalizeLLMFilters [("price", jobj [("foo", jint 1)])] = [] := by rfl

example :
    normalizeLLMFilters [("marca", jstr "Audi"), ("year", jstr "2016")]
      = [("brand_name", jstr "Audi"), ("year_manufacture_min", jint 2016),
         ("year_manufacture_max", jint 2016), ("year_model_min", jint 2016),
         ("year_model_max", jint 2016)] := by rfl

example :
    normalizeLLMFilters [("doors", jint 4), ("cor", jstr "preto")]
      = [("doors_min", jint 4), ("doors_max", jint 4),
         ("color_name", jstr "preto")] := by rfl

/-!
## Preference-map path (`LLMInterface._convert_preferences_to_filters`)
-/

/-- `quilometragem`/`portas` guard: `isinstance(v, (int, float))` — Python
bools are ints; fractional floats are outside the embedding. -/
def isPyNumeric : JVal → Bool
  | jint _ => true
  | jbool _ => true
  | _ => false

/-- Truncating numeric conversion used after the `isPyNumeric` guard. -/
def pyIntOfNumeric : JVal → Int
  | jint n => n
  | jbool b => if b then 1 else 0
  | _ => 0

/-- `_convert_preferences_to_filters`: the fixed-key filter dict is built
first (missing preferences become `None`), then the price-category, year,
mileage and door rules update it, and `None` values are removed at the end.
Note the Python `isinstance(ano, int)` branch also fires on bools. -/
def convertPreferencesToFilters (preferences : Dict) : Dict :=
  let f0 : Dict := [
    ("brand_name", dictGetD preferences "marca" jnull),
    ("price_min", jnull), ("price_max", jnull),
    ("year_manufacture_min", jnull), ("year_manufacture_max", jnull),
    ("year_model_min", jnull), ("year_model_max", jnull),
    ("fuel_type", dictGetD preferences "combustivel" jnull),
    ("transmission", dictGetD preferences "transmissao" jnull),
    ("color_name", dictGetD preferences "cor" jnull),
    ("doors_min", jnull), ("doors_max", jnull),
    ("mileage_min", jnull), ("mileage_max", jnull)]
  let fp := dictGetD preferences "faixa_preco" jnull
  let f1 :=
    if eqStr fp "economico" then dictSet f0 "price_max" (jint 50000)
    else if eqStr fp "medio" then
      dictSet (dictSet f0 "price_min" (jint 30000)) "price_max" (jint 100000)
    else if eqStr fp "luxo" then dictSet f0 "price_min" (jint 100000)
    else f0
  let ano := dictGetD preferences "ano" jnull
  let f2 :=
    match ano with
    | jint _ | jbool _ =>
        dictSet (dictSet (dictSet (dictSet f1
          "year_manufacture_min" ano) "year_manufacture_max" ano)
          "year_model_min" ano) "year_model_max" ano
    | jstr s =>
        if s = "recente" then
          dictSet (dictSet f1 "year_manufacture_min" (jint 2020))
            "year_model_min" (jint 2020)
        else if s = "antigo" then
          dictSet (dictSet f1 "year_manufacture_max" (jint 2015))
            "year_model_max" (jint 2015)
        else f1
    | _ => f1
  let km := dictGetD preferences "quilometragem" jnull
  let f3 :=
    if pyTruthy km ∧ isPyNumeric km then
      dictSet f2 "mileage_max" (jint (pyIntOfNumeric km))
    else f2
  let pt := dictGetD preferences "portas" jnull
  let f4 :=
    if pyTruthy pt ∧ isPyNumeric pt then
      dictSet (dictSet f3 "doors_min" (jint (pyIntOfNumeric pt)))
        "doors_max" (jint (pyIntOfNumeric pt))
    else f3
  f4.filter (fun p => !(isNull p.2))

example :
    convertPreferencesToFilters [("faixa_preco", jstr "economico")]
      = [("price_max", jint 50000)] := by rfl

example :
    convertPreferencesToFilters
        [("marca", jstr "Audi"), ("ano", jint 2016), ("portas", jint 4)]
      = [("brand_name", jstr "Audi"),
         ("year_manufacture_min", jint 2016), ("year_manufacture_max", jint 2016),
         ("year_model_min", jint 2016), ("year_model_max", jint 2016),
         ("doors_min", jint 4), ("doors_max", jint 4)] := by rfl

/-!
## Conversation turn (`run_car_agent.Command`)
-/

/-- Python `dict.update`: entries of `new` overwrite same keys of `old`,
unmentioned keys persist. -/
def dictUpdate (old new : Dict) : Dict :=
  new.foldl (fun acc p => dictSet acc p.1 p.2) old

/-- `_has_sufficient_info`: `any(prefs.values())` — Python truthiness over
the stored values. -/
def hasSufficientInfo (prefs : Dict) : Bool :=
  prefs.any (fun p => pyTruthy p.2)

/-- `_get_missing_info`: fixed priority marca/modelo, faixa_preco, ano,
using truthiness of `prefs.get(key)`. -/
def getMissingInfo (prefs : Dict) : List String :=
  (if !(pyTruthy (dictGetD prefs "marca" jnull))
      ∧ !(pyTruthy (dictGetD prefs "modelo" jnull))
   then ["marca"] else [])
  ++ (if !(pyTruthy (dictGetD prefs "faixa_preco" jnull))
      then ["faixa_preco"] else [])
  ++ (if !(pyTruthy (dictGetD prefs "ano" jnull)) then ["ano"] else [])

/-- Outcome of one conversational turn: either the turn proceeds to the
search pipeline, or it asks a clarifying question for the missing items. -/
inductive TurnDecision where
  | search : TurnDecision
  | ask : List String → TurnDecision

/-- The decision structure of `_process_user_input`: merge the newly
extracted preferences into the accumulated map, then branch on
`_has_sufficient_info` — search when sufficient, otherwise generate a
clarifying question from `_get_missing_info`.  The search/LLM calls
themselves are external effects and are not part of the decision. -/
def processTurn (state extracted : Dict) : TurnDecision × Dict :=
  let merged := dictUpdate state extracted
  if hasSufficientInfo merged then (TurnDecision.search, merged)
  else (TurnDecision.ask (getMissingInfo merged), merged)

/-!
## Search history (`MCPCarSocket._add_to_search_history`)
-/

/-- One entry of the per-connection search history
(`MCPCarSocket.create_search_entry`). -/
structure SearchEntry where
  timestamp : String
  filters : Dict
  pagination : Dict
  results_count : Int
  success : Bool

/-- `_add_to_search_history`: append the entry, then keep only the last 50
(`self.search_history = self.search_history[-50:]`). -/
def addToSearchHistory (history : List SearchEntry) (e : SearchEntry) :
    List SearchEntry :=
  let h2 := history ++ [e]
  if h2.length > 50 then h2.drop (h2.length - 50) else h2

/-!
## Catalog records and the query executor (`CarMCPHandler._apply_filters`)

A catalog row joined with its related names, as `handle_search_cars` reads
it through `select_related`.  The float `price` and the `created_at`
timestamp are modelled as integers (only their ordering and comparisons
with integral bounds matter here).
-/

structure Car where
  id : String
  brand_id : String
  color_id : String
  engine_id : String
  car_model_id : String
  car_name_id : String
  brand_name : String
  car_name : String
  car_model_name : String
  color_name : String
  engine_name : String
  fuel_type : String
  transmission : String
  year_manufacture : Int
  year_model : Int
  mileage : Int
  doors : Int
  price : Int
  created_at : Int

/-- Is `needle` a prefix of `hay`? -/
def charsPre : List Char → List Char → Bool
  | [], _ => true
  | _ :: _, [] => false
  | c :: cs, h :: hs => c == h && charsPre cs hs

/-- Substring test on character lists. -/
def charsSub (hay needle : List Char) : Bool :=
  match hay with
  | [] => needle.isEmpty
  | _ :: rest => charsPre needle hay || charsSub rest needle

/-- Django `icontains`: case-insensitive substring match. -/
def icontains (hay needle : String) : Bool :=
  charsSub (hay.toList.map Char.toLower) (needle.toList.map Char.toLower)

/-- Python `str(v)` as used when a filter value reaches an ORM lookup; the
serializers only let strings through to the string lookups, so only the
`jstr` case is exercised. -/
def pyStr : JVal → String
  | jnull => "None"
  | jbool b => if b then "True" else "False"
  | jint n => toString n
  | jstr s => s
  | jobj _ => ""

/-- One scalar stage of `_apply_filters`: the constraint is applied only
when `filters.get(key)` is truthy. -/
def condFilter (filters : Dict) (k : String) (pred : JVal → Car → Bool)
    (l : List Car) : List Car :=
  let v := dictGetD filters k jnull
  if pyTruthy v then l.filter (pred v) else l

/-- One range stage of `_apply_filters`: the constraint is applied whenever
the key is present and its value is not `None` (`min_key in filters and
filters[min_key] is not None`).  Bounds are integral after validation. -/
def rangeFilter (filters : Dict) (k : String) (proj : Car → Int)
    (isMin : Bool) (l : List Car) : List Car :=
  match dictGet filters k with
  | none => l
  | some v =>
      if isNull v then l
      else
        match pyInt v with
        | some b => l.filter (fun c => if isMin then b ≤ proj c else proj c ≤ b)
        | none => l

/-- The filter stages of `_apply_filters` in source order: the
`filter_mappings` scalar lookups, the `range_filters` min/max pairs, and
the free-text `search` disjunction. -/
def applyStages (filters : Dict) (cars : List Car) : List Car :=
  let q1 := condFilter filters "brand_id"
    (fun v c => c.brand_id == pyStr v) cars
  let q2 := condFilter filters "color_id"
    (fun v c => c.color_id == pyStr v) q1
  let q3 := condFilter filters "engine_id"
    (fun v c => c.engine_id == pyStr v) q2
  let q4 := condFilter filters "car_model_id"
    (fun v c => c.car_model_id == pyStr v) q3
  let q5 := condFilter filters "car_name_id"
    (fun v c => c.car_name_id == pyStr v) q4
  let q6 := condFilter filters "brand_name"
    (fun v c => icontains c.brand_name (pyStr v)) q5
  let q7 := condFilter filters "color_name"
    (fun v c => icontains c.color_name (pyStr v)) q6
  let q8 := condFilter filters "engine_name"
    (fun v c => icontains c.engine_name (pyStr v)) q7
  let q9 := condFilter filters "car_model_name"
    (fun v c => icontains c.car_model_name (pyStr v)) q8
  let q10 := condFilter filters "car_name"
    (fun v c => icontains c.car_name (pyStr v)) q9
  let q11 := condFilter filters "fuel_type"
    (fun v c => c.fuel_type == pyStr v) q10
  let q12 := condFilter filters "transmission"
    (fun v c => c.transmission == pyStr v) q11
  let r1 := rangeFilter filters "year_manufacture_min" Car.year_manufacture true q12
  let r2 := rangeFilter filters "year_manufacture_max" Car.year_manufacture false r1
  let r3 := rangeFilter filters "year_model_min" Car.year_model true r2
  let r4 := rangeFilter filters "year_model_max" Car.year_model false r3
  let r5 := rangeFilter filters "mileage_min" Car.mileage true r4
  let r6 := rangeFilter filters "mileage_max" Car.mileage false r5
  let r7 := rangeFilter filters "doors_min" Car.doors true r6
  let r8 := rangeFilter filters "doors_max" Car.doors false r7
  let r9 := rangeFilter filters "price_min" Car.price true r8
  let r10 := rangeFilter filters "price_max" Car.price false r9
  condFilter filters "search"
    (fun v c =>
      icontains c.car_name (pyStr v) || icontains c.brand_name (pyStr v)
      || icontains c.car_model_name (pyStr v) || icontains c.color_name (pyStr v)
      || icontains c.engine_name (pyStr v)) r10

/-- `_apply_filters`: an empty filter dict returns the queryset unchanged,
otherwise the stages run in order. -/
def applyFilters (filters : Dict) (cars : List Car) : List Car :=
  if filters.isEmpty then cars else applyStages filters cars

/-!
## Ordering (`queryset.order_by(ordering)`)
-/

/-- Integer-valued orderable fields of the `Car` model. -/
def carKeyInt (field : String) : Option (Car → Int) :=
  if field = "created_at" then some Car.created_at
  else if field = "price" then some Car.price
  else if field = "year_manufacture" then some Car.year_manufacture
  else if field = "year_model" then some Car.year_model
  else if field = "mileage" then some Car.mileage
  else if field = "doors" then some Car.doors
  else none

/-- String-valued orderable fields of the `Car` model. -/
def carKeyStr (field : String) : Option (Car → String) :=
  if field = "id" then some Car.id
  else if field = "fuel_type" then some Car.fuel_type
  else if field = "transmission" then some Car.transmission
  else none

/-- Insertion into a sorted list (stable: equal keys keep earlier elements
in front). -/
def insertSorted (le : Car → Car → Bool) (x : Car) : List Car → List Car
  | [] => [x]
  | y :: ys => if le y x then y :: insertSorted le x ys else x :: y :: ys

/-- Stable insertion sort. -/
def sortCars (le : Car → Car → Bool) (l : List Car) : List Car :=
  l.foldr (insertSorted le) []

/-- Django `order_by(s)`: a leading `-` means descending; an unknown field
name raises `FieldError` when the queryset is evaluated, modelled as
`none`. -/
def orderBy (s : String) (cars : List Car) : Option (List Car) :=
  let cs := s.toList
  let desc := match cs with
    | '-' :: _ => true
    | _ => false
  let field := String.mk (match cs with
    | '-' :: rest => rest
    | _ => cs)
  match carKeyInt field with
  | some proj =>
      some (sortCars (fun a b =>
        if desc then proj b ≤ proj a else proj a ≤ proj b) cars)
  | none =>
      match carKeyStr field with
      | some proj =>
          some (sortCars (fun a b =>
            if desc then proj b ≤ proj a else proj a ≤ proj b) cars)
      | none => none

/-!
## Request serializers (`apps/web_sockets/serializers.py`)

DRF field validation is embedded per field kind.  `UUIDField` format
checking and `DecimalField` digit bounds are abstracted (any string
respectively any integral number is accepted); no claim exercises them.
-/

/-- The DRF field kinds used by the MCP serializers. -/
inductive BField where
  | charF : Option Nat → Bool → BField
  | intF : Option Int → Option Int → Bool → BField
  | uuidF : BField
  | decimalF : BField
  | dictF : BField

/-- `run_validation` for one field: `charF maxLen allowNull` accepts
strings within `max_length` (and `null` when allowed); `intF lo hi
allowNull` accepts integers within `min_value`/`max_value`. -/
def validateBField : BField → JVal → Option JVal
  | BField.charF ml _, jstr s =>
      if ml.all (fun m => s.length ≤ m) then some (jstr s) else none
  | BField.charF _ an, jnull => if an then some jnull else none
  | BField.charF _ _, _ => none
  | BField.intF lo hi _, jint n =>
      if lo.all (fun m => m ≤ n) && hi.all (fun m => n ≤ m) then some (jint n)
      else none
  | BField.intF _ _ an, jnull => if an then some jnull else none
  | BField.intF _ _ _, _ => none
  | BField.uuidF, jstr s => some (jstr s)
  | BField.uuidF, jnull => some jnull
  | BField.uuidF, _ => none
  | BField.decimalF, jint n => some (jint n)
  | BField.decimalF, jnull => some jnull
  | BField.decimalF, _ => none
  | BField.dictF, jobj w => some (jobj w)
  | BField.dictF, jnull => some jnull
  | BField.dictF, _ => none

/-- Run declared fields over the input: a present key must validate, an
absent key contributes its default (if any).  The validated dict lists the
fields in declaration order, as DRF's `to_internal_value` does. -/
def runFields (specs : List (String × BField × Option JVal)) (input : Dict) :
    Option Dict :=
  match specs with
  | [] => some []
  | spec :: rest =>
      match dictGet input spec.1 with
      | some v =>
          match validateBField spec.2.1 v with
          | some w => (runFields rest input).map (fun vd => (spec.1, w) :: vd)
          | none => none
      | none =>
          match spec.2.2 with
          | some dflt => (runFields rest input).map (fun vd => (spec.1, dflt) :: vd)
          | none => runFields rest input

/-- Declared fields of `CarFilterSerializer` (all optional, all
`allow_null`, `CharField`s without `max_length`). -/
def carFilterSpecs : List (String × BField × Option JVal) :=
  [("brand_id", BField.uuidF, none),
   ("brand_name", BField.charF none true, none),
   ("color_id", BField.uuidF, none),
   ("color_name", BField.charF none true, none),
   ("engine_id", BField.uuidF, none),
   ("engine_name", BField.charF none true, none),
   ("car_model_id", BField.uuidF, none),
   ("car_model_name", BField.charF none true, none),
   ("car_name_id", BField.uuidF, none),
   ("car_name", BField.charF none true, none),
   ("year_manufacture_min", BField.intF (some 1900) (some 9999) true, none),
   ("year_manufacture_max", BField.intF (some 1900) (some 9999) true, none),
   ("year_model_min", BField.intF (some 1900) (some 9999) true, none),
   ("year_model_max", BField.intF (some 1900) (some 9999) true, none),
   ("price_min", BField.decimalF, none),
   ("price_max", BField.decimalF, none),
   ("mileage_min", BField.intF (some 0) none true, none),
   ("mileage_max", BField.intF (some 0) none true, none),
   ("doors_min", BField.intF (some 2) (some 8) true, none),
   ("doors_max", BField.intF (some 2) (some 8) true, none),
   ("fuel_type", BField.charF none true, none),
   ("transmission", BField.charF none true, none),
   ("search", BField.charF none true, none)]

/-- Declared fields of `PaginationSerializer` (`page` defaults to 1,
`page_size` to 20 and is bounded 1..100). -/
def paginationSpecs : List (String × BField × Option JVal) :=
  [("page", BField.intF (some 1) none false, some (jint 1)),
   ("page_size", BField.intF (some 1) (some 100) false, some (jint 20)),
   ("ordering", BField.charF none true, none)]

/-- Direct declared fields of `SearchCarsRequestSerializer`, in declaration
order (the nested `filters`/`pagination` serializers are run separately). -/
def searchSpecs : List (String × BField × Option JVal) :=
  [("action", BField.charF none false, some (jstr "search_cars")),
   ("request_id", BField.charF none true, none),
   ("brand_id", BField.uuidF, none),
   ("brand_name", BField.charF (some 255) true, none),
   ("color_id", BField.uuidF, none),
   ("color_name", BField.charF (some 255) true, none),
   ("engine_id", BField.uuidF, none),
   ("engine_name", BField.charF (some 255) true, none),
   ("car_model_id", BField.uuidF, none),
   ("car_model_name", BField.charF (some 255) true, none),
   ("car_name_id", BField.uuidF, none),
   ("car_name", BField.charF (some 255) true, none),
   ("year_manufacture_min", BField.intF (some 1900) (some 9999) true, none),
   ("year_manufacture_max", BField.intF (some 1900) (some 9999) true, none),
   ("year_model_min", BField.intF (some 1900) (some 9999) true, none),
   ("year_model_max", BField.intF (some 1900) (some 9999) true, none),
   ("price_min", BField.decimalF, none),
   ("price_max", BField.decimalF, none),
   ("mileage_min", BField.intF (some 0) none true, none),
   ("mileage_max", BField.intF (some 0) none true, none),
   ("doors_min", BField.intF (some 2) (some 8) true, none),
   ("doors_max", BField.intF (some 2) (some 8) true, none),
   ("fuel_type", BField.charF none true, none),
   ("transmission", BField.charF none true, none),
   ("search", BField.charF none true, none),
   ("page", BField.intF (some 1) none false, none),
   ("page_size", BField.intF (some 1) (some 100) false, none),
   ("ordering", BField.charF none true, none)]

/-- All field names of `SearchCarsRequestSerializer` (`self.fields`),
including the nested `filters` and `pagination`. -/
def searchFieldNames : List String :=
  (searchSpecs.map (fun spec => spec.1)) ++ ["filters", "pagination"]

/-- `SearchCarsRequestSerializer.is_valid` + `validate`: field validation
(including the nested `CarFilterSerializer`/`PaginationSerializer`), then
the custom `validate` flattens validated `filters` and `pagination` entries
into the top level and fills in `page`/`page_size` defaults.  (The
serializer declares no `data` field, so the `"data" in data` branch of
`validate` never fires on validated data.) -/
def validateSearchCars (inner : Dict) : Option Dict :=
  match runFields searchSpecs inner with
  | none => none
  | some vd0 =>
      let withFilters :=
        match dictGet inner "filters" with
        | some (jobj fd) =>
            (runFields carFilterSpecs fd).map
              (fun fvd => vd0 ++ [("filters", jobj fvd)])
        | some _ => none
        | none => some vd0
      match withFilters with
      | none => none
      | some vd1 =>
          let withPagination :=
            match dictGet inner "pagination" with
            | some (jobj pd) =>
                (runFields paginationSpecs pd).map
                  (fun pvd => vd1 ++ [("pagination", jobj pvd)])
            | some _ => none
            | none => some vd1
          match withPagination with
          | none => none
          | some vd2 =>
              let vd3 :=
                match dictGet vd2 "filters" with
                | some (jobj fd) =>
                    fd.foldl
                      (fun a p =>
                        if p.1 ∈ searchFieldNames then dictSet a p.1 p.2 else a)
                      vd2
                | _ => vd2
              let vd4 :=
                match dictGet vd3 "pagination" with
                | some (jobj pd) =>
                    pd.foldl
                      (fun a p =>
                        if p.1 ∈ searchFieldNames then dictSet a p.1 p.2 else a)
                      vd3
                | _ => vd3
              let vd5 :=
                match dictGet vd4 "page" with
                | some v => if isNull v then dictSet vd4 "page" (jint 1) else vd4
                | none => dictSet vd4 "page" (jint 1)
              let vd6 :=
                match dictGet vd5 "page_size" with
                | some v =>
                    if isNull v then dictSet vd5 "page_size" (jint 20) else vd5
                | none => dictSet vd5 "page_size" (jint 20)
              some vd6

/-- Declared fields of `MCPRequestSerializer`: `action` is a `CharField`
with `max_length=100`, `request_id` an optional nullable `CharField`, and
`data` a `DictField` defaulting to `{}`. -/
def mcpSpecs : List (String × BField × Option JVal) :=
  [("action", BField.charF (some 100) false, none),
   ("request_id", BField.charF none true, none),
   ("data", BField.dictF, some (jobj []))]

/-- `MCPRequestSerializer.is_valid` + `validate`: field validation, then the
custom `validate` copies `action`/`request_id`/`data` keys found inside the
validated `data` dict up to the top level (without re-validating them). -/
def validateMCPRequest (full : Dict) : Option Dict :=
  match runFields mcpSpecs full with
  | none => none
  | some vd =>
      match dictGet vd "data" with
      | some (jobj nd) =>
          some (nd.foldl
            (fun a p =>
              if p.1 ∈ ["action", "request_id", "data"] then dictSet a p.1 p.2
              else a)
            vd)
      | _ => some vd

/-!
## MCP envelopes, dispatch and the consumer entry point
-/

/-- Payload of an MCP envelope: empty (error envelopes and the envelopes of
the non-search catalog handlers, whose bodies live behind the database
boundary) or a search result page. -/
inductive MCPData where
  | empty : MCPData
  | page : List Car → Int → Int → Int → Int → MCPData

/-- An MCP response envelope (`create_mcp_response`/`create_mcp_error` in
`mcp_handlers.py`); the wall-clock `timestamp` field is outside the
embedding. -/
structure MCPResponse where
  rtype : String
  success : Bool
  request_id : Option JVal
  data : MCPData
  error : Option String
  error_code : Option String

/-- `create_mcp_error`. -/
def mcpError (msg code : String) (rid : Option JVal) : MCPResponse :=
  { rtype := "mcp_error", success := false, request_id := rid,
    data := MCPData.empty, error := some msg, error_code := some code }

/-- `validated_data.get("ordering", "-created_at")`: the default applies
only when the key is absent; an explicit `null` is kept (and, being falsy,
later suppresses ordering altogether). -/
def resolveOrdering (vd : Dict) : JVal :=
  dictGetD vd "ordering" (jstr "-created_at")

/-- `CarMCPHandler.handle_search_cars` on the validated data: keep non-null
entries as the filter dict, read pagination and ordering, filter, count,
order (an invalid ordering raises at query evaluation and is caught by the
handler's `except`, yielding a `SEARCH_ERROR` envelope), then slice. -/
def handleSearchCars (cars : List Car) (vd : Dict) : MCPResponse :=
  let request_id := dictGet vd "request_id"
  let filters := vd.filter (fun p => !(isNull p.2))
  let page := match dictGet vd "page" with
    | some (jint n) => n
    | _ => 1
  let page_size := match dictGet vd "page_size" with
    | some (jint n) => n
    | _ => 20
  let ordering := resolveOrdering vd
  let qs := applyFilters filters cars
  let total : Int := qs.length
  let ordered :=
    if pyTruthy ordering then
      match ordering with
      | jstr s => orderBy s qs
      | _ => none
    else some qs
  match ordered with
  | none => mcpError "Erro na busca de carros" "SEARCH_ERROR" request_id
  | some q =>
      let start := ((page - 1) * page_size).toNat
      let results := (q.drop start).take page_size.toNat
      let total_pages := (total + page_size - 1) / page_size
      { rtype := "mcp_response", success := true, request_id := request_id,
        data := MCPData.page results total page page_size total_pages,
        error := none, error_code := none }

/-- Result of `MCPHandler.handle_request`: either a fully computed envelope,
or the request was dispatched to one of the five non-search catalog
handlers (whose database-reading bodies are outside the embedding). -/
inductive HandleResult where
  | resp : MCPResponse → HandleResult
  | delegated : String → Dict → HandleResult

/-- The non-search entries of `handler_map`. -/
def sideActions : List String :=
  ["get_brands", "get_colors", "get_engines", "get_car_details",
   "get_filters_options"]

/-- `MCPHandler.handle_request`: read the action from the raw nested data;
`search_cars` validates the *inner* data dict with
`SearchCarsRequestSerializer`, everything else validates the full request
with `MCPRequestSerializer`; serializer failure yields `INVALID_REQUEST`;
an action missing from `handler_map` yields `UNSUPPORTED_ACTION`.  A
non-dict `data` value makes `request_data.get("data", {}).get("action")`
raise, and a dict-valued action makes `handler_map.get(action)` raise
(unhashable key); both are caught by the outer `except` as
`INTERNAL_ERROR`. -/
def handleRequest (cars : List Car) (full : Dict) : HandleResult :=
  match dictGetD full "data" (jobj []) with
  | jobj inner =>
      let action := dictGet inner "action"
      if eqStr (dictGetD inner "action" jnull) "search_cars" then
        match validateSearchCars inner with
        | none =>
            HandleResult.resp (mcpError "Dados de requisição inválidos"
              "INVALID_REQUEST" (dictGet full "request_id"))
        | some vd => HandleResult.resp (handleSearchCars cars vd)
      else
        match validateMCPRequest full with
        | none =>
            HandleResult.resp (mcpError "Dados de requisição inválidos"
              "INVALID_REQUEST" (dictGet full "request_id"))
        | some vd =>
            let rid := dictGet vd "request_id"
            match action with
            | some (jobj _) =>
                HandleResult.resp (mcpError "Erro interno do servidor"
                  "INTERNAL_ERROR" (dictGet full "request_id"))
            | some (jstr a) =>
                if a ∈ sideActions then HandleResult.delegated a vd
                else
                  HandleResult.resp (mcpError ("Ação não suportada")
                    "UNSUPPORTED_ACTION" rid)
            | _ =>
                HandleResult.resp (mcpError ("Ação não suportada")
                  "UNSUPPORTED_ACTION" rid)
  | _ =>
      HandleResult.resp (mcpError "Erro interno do servidor" "INTERNAL_ERROR"
        (dictGet full "request_id"))

/-- `MCPCarSocket._handle_mcp_request` on an `mcp_request` frame: read the
nested data and the top-level `request_id`, generate an id when the given
one is falsy (`genId` stands for the timestamp-derived
`req_YYYYmmdd_HHMMSS_ffffff` string), build the full request structure and
hand it to `MCPHandler.handle_request`. -/
def handleMCPRequest (genId : String) (cars : List Car) (message : Dict) :
    HandleResult :=
  let request_data := dictGetD message "data" (jobj [])
  let rid0 := dictGetD message "request_id" jnull
  let rid := if pyTruthy rid0 then rid0 else jstr genId
  handleRequest cars [("request_id", rid), ("data", request_data)]

example :
    handleMCPRequest "req_x" []
        [("request_id", jstr "test_123"),
         ("data", jobj [("action", jstr "unsupported_action")])]
      = HandleResult.resp (mcpError "Ação não suportada" "UNSUPPORTED_ACTION"
          (some (jstr "test_123"))) := by rfl

example :
    handleMCPRequest "req_x" []
        [("request_id", jstr "test_123"),
         ("data", jobj [("action", jstr "search_cars"),
                        ("filters", jobj [("brand_name", jstr "Toyota")])])]
      = HandleResult.resp
          { rtype := "mcp_response", success := true, request_id := none,
            data := MCPData.page [] 0 1 20 0, error := none,
            error_code := none } := by rfl

example :
    handleMCPRequest "req_x" []
        [("request_id", jstr "abc"),
         ("data", jobj [("action", jstr "get_brands")])]
      = HandleResult.delegated "get_brands"
          [("request_id", jstr "abc"),
           ("data", jobj [("action", jstr "get_brands")]),
           ("action", jstr "get_brands")] := by rfl

/-!
## Claims
-/

/-- C4: after every recorded search, the per-connection search history holds
at most 50 entries; the result is a suffix of the old history extended with
the new entry (so evictions remove oldest entries first and the retained
entries keep their FIFO order), and at the cap exactly the single oldest
entry is evicted. -/
theorem searchHistory_capped_fifo (h : List SearchEntry) (e : SearchEntry)
    (hlen : h.length ≤ 50) :
    (addToSearchHistory h e).length ≤ 50
    ∧ (addToSearchHistory h e).IsSuffix (h ++ [e])
    ∧ (h.length = 50 → addToSearchHistory h e = (h ++ [e]).drop 1) := by
  unfold addToSearchHistory
  by_cases hc : (h ++ [e]).length > 50
  · rw [if_pos hc]
    have hfull : h.length = 50 := by
      simp only [List.length_append, List.length_singleton] at hc
      omega
    refine ⟨?_, List.drop_suffix _ _, fun _ => ?_⟩
    · simp [List.length_append, hfull]
    · simp [List.length_append, hfull]
  · rw [if_neg hc]
    simp only [List.length_append, List.length_singleton, gt_iff_lt,
      not_lt] at hc
    refine ⟨by simpa using hc, List.suffix_refl _, fun hfull => ?_⟩
    omega

/-- History entry used to evaluate `searchHistory_capped_fifo` concretely. -/
def histEntry : SearchEntry :=
  { timestamp := "t", filters := [], pagination := [], results_count := 0,
    success := true }

theorem searchHistory_capped_fifo_check :
    (addToSearchHistory (List.replicate 50 histEntry) histEntry).length ≤ 50
    ∧ (addToSearchHistory (List.replicate 50 histEntry) histEntry).IsSuffix
        (List.replicate 50 histEntry ++ [histEntry]) :=
  ⟨(searchHistory_capped_fifo (List.replicate 50 histEntry) histEntry
      (by simp)).1,
   (searchHistory_capped_fifo (List.replicate 50 histEntry) histEntry
      (by simp)).2.1⟩

/-- C3 (counterexample): the preference map `{"portas": 0}` has a non-null
value, yet `_has_sufficient_info` is false (Python truthiness, not
non-nullness) and the turn asks a clarifying question instead of searching.
The claim's "at least one non-null value" biconditional is therefore false
at this input. -/
theorem sufficiency_nonnull_cex :
    (∃ p ∈ ([("portas", jint 0)] : Dict), isNull p.2 = false)
    ∧ hasSufficientInfo [("portas", jint 0)] = false
    ∧ (processTurn [("portas", jint 0)] []).1
        = TurnDecision.ask ["marca", "faixa_preco", "ano"] :=
  ⟨⟨("portas", jint 0), by simp, rfl⟩, rfl, rfl⟩

/-- C3 (amended): the turn proceeds to search exactly when the merged
preference map holds at least one *truthy* value (non-null, non-zero,
non-empty, non-false); otherwise it asks the clarifying question built from
the missing-info list. -/
theorem turn_decision_iff_truthy (state extracted : Dict) :
    ((processTurn state extracted).1 = TurnDecision.search ↔
      ∃ p ∈ dictUpdate state extracted, pyTruthy p.2 = true)
    ∧ ((processTurn state extracted).1 ≠ TurnDecision.search →
        (processTurn state extracted).1 =
          TurnDecision.ask (getMissingInfo (dictUpdate state extracted))) := by
  unfold processTurn
  by_cases hs : hasSufficientInfo (dictUpdate state extracted) = true
  · rw [if_pos hs]
    exact ⟨⟨fun _ => List.any_eq_true.mp hs, fun _ => rfl⟩,
      fun hne => absurd rfl hne⟩
  · rw [if_neg hs]
    constructor
    · constructor
      · intro hco
        exact absurd hco (by simp)
      · intro hex
        exact absurd (List.any_eq_true.mpr hex) hs
    · intro _
      rfl

theorem turn_decision_iff_truthy_check :
    (processTurn [("marca", jstr "Audi")] []).1 = TurnDecision.search :=
  (turn_decision_iff_truthy [("marca", jstr "Audi")] []).1.mpr
    ⟨("marca", jstr "Audi"), by simp [dictUpdate], rfl⟩

theorem convert_year_lookup (prefs : Dict) (y : Int)
    (h : dictGet prefs "ano" = some (jint y)) (key : String)
    (hk : key ∈ ["year_manufacture_min", "year_manufacture_max",
      "year_model_min", "year_model_max"]) :
    dictGet (convertPreferencesToFilters prefs) key = some (jint y) := by
  have hano : dictGetD prefs "ano" jnull = jint y := by
    simp [dictGetD, h]
  simp only [convertPreferencesToFilters, hano]
  refine dictGet_filter_of_ne_null _ _ _ ?_ rfl
  fin_cases hk <;>
    · repeat' split
      all_goals simp [dictGet_dictSet_ne, dictGet_dictSet_self]

/-- C7: an explicit integer year Y — a bare integer-parsable `year` value in
a raw LLM payload, or an integer `ano` preference — pins all four canonical
year bounds (`year_manufacture_min/max`, `year_model_min/max`) to Y. -/
theorem year_pins_both_year_windows :
    (∀ (v : JVal) (y : Int), pyInt v = some y →
      normalizeLLMFilters [("year", v)] =
        [("year_manufacture_min", jint y), ("year_manufacture_max", jint y),
         ("year_model_min", jint y), ("year_model_max", jint y)])
    ∧ (∀ (prefs : Dict) (y : Int), dictGet prefs "ano" = some (jint y) →
        dictGet (convertPreferencesToFilters prefs) "year_manufacture_min"
            = some (jint y)
        ∧ dictGet (convertPreferencesToFilters prefs) "year_manufacture_max"
            = some (jint y)
        ∧ dictGet (convertPreferencesToFilters prefs) "year_model_min"
            = some (jint y)
        ∧ dictGet (convertPreferencesToFilters prefs) "year_model_max"
            = some (jint y)) := by
  constructor
  · intro v y h
    cases v with
    | jnull => simp [pyInt] at h
    | jobj w => simp [pyInt] at h
    | jbool b =>
        simp [normalizeLLMFilters, normStep, keySynonym, stripOperator,
          dictSet, dictHas, dictGetD, dictGet, isNull, eqStr, h]
    | jint n =>
        simp [normalizeLLMFilters, normStep, keySynonym, stripOperator,
          dictSet, dictHas, dictGetD, dictGet, isNull, eqStr, h]
    | jstr s =>
        by_cases hs : s = ""
        · subst hs
          simp [pyInt, pyStrToInt, digitsVal] at h
        · simp [normalizeLLMFilters, normStep, keySynonym, stripOperator,
            dictSet, dictHas, dictGetD, dictGet, isNull, eqStr, hs, h]
  · intro prefs y h
    exact ⟨convert_year_lookup prefs y h _ (by simp),
      convert_year_lookup prefs y h _ (by simp),
      convert_year_lookup prefs y h _ (by simp),
      convert_year_lookup prefs y h _ (by simp)⟩

theorem year_pins_both_year_windows_check :
    normalizeLLMFilters [("year", jstr "2016")]
      = [("year_manufacture_min", jint 2016),
         ("year_manufacture_max", jint 2016),
         ("year_model_min", jint 2016), ("year_model_max", jint 2016)]
    ∧ dictGet (convertPreferencesToFilters
          [("marca", jstr "Audi"), ("ano", jint 2016)]) "year_model_max"
        = some (jint 2016) :=
  ⟨year_pins_both_year_windows.1 (jstr "2016") 2016 rfl,
   (year_pins_both_year_windows.2
      [("marca", jstr "Audi"), ("ano", jint 2016)] 2016 rfl).2.2.2⟩

/-- C5: a raw payload whose `price` value is a recognized range wrapper
(no equality markers) carrying a non-null lower and upper bound normalizes
to exactly `price_min`/`price_max` with those bounds and no `price` key. -/
theorem price_range_wrapper_normalizes (w : Dict) (lo hi : JVal)
    (hEq : ∀ op ∈ eqOps, dictHas w op = false)
    (hlo : lowerOf w = lo) (hhi : upperOf w = hi)
    (hlo2 : isNull lo = false) (hhi2 : isNull hi = false) :
    normalizeLLMFilters [("price", jobj w)]
      = [("price_min", lo), ("price_max", hi)] := by
  have hfind : List.find? (fun op => dictHas w op) eqOps = none := by
    rw [List.find?_eq_none]
    intro op hop
    simp [hEq op hop]
  have hskip1 : isNull (jobj w) = false := rfl
  have hskip2 : eqStr (jobj w) "" = false := rfl
  simp [normalizeLLMFilters, normStep, stripOperator, keySynonym, rangeBases,
    dictSet, dictHas, dictGetD, dictGet, hfind, hlo, hhi, hlo2, hhi2,
    hskip1, hskip2]

theorem price_range_wrapper_normalizes_check :
    normalizeLLMFilters
        [("price", jobj [("$gte", jint 30000), ("$lte", jint 90000)])]
      = [("price_min", jint 30000), ("price_max", jint 90000)] :=
  price_range_wrapper_normalizes
    [("$gte", jint 30000), ("$lte", jint 90000)] (jint 30000) (jint 90000)
    (by decide) rfl rfl rfl rfl

/-!
## C6 helper lemmas
-/

/-- The canonical flat filter vocabulary (`CarFilterSerializer`). -/
def canonicalKeys : List String :=
  ["brand_id", "brand_name", "color_id", "color_name", "engine_id",
   "engine_name", "car_model_id", "car_model_name", "car_name_id",
   "car_name", "year_manufacture_min", "year_manufacture_max",
   "year_model_min", "year_model_max", "price_min", "price_max",
   "mileage_min", "mileage_max", "doors_min", "doors_max", "fuel_type",
   "transmission", "search"]

/-- Scalar (non-dict) values. -/
def isScalarVal : JVal → Bool
  | jobj _ => false
  | _ => true

theorem keySynonym_canonical (k : String) (h : k ∈ canonicalKeys) :
    keySynonym k = k := by
  fin_cases h <;> rfl

theorem canonical_not_special (k : String) (h : k ∈ canonicalKeys) :
    k ≠ "doors" ∧ k ≠ "year" ∧ k ≠ "ano" := by
  fin_cases h <;> exact ⟨by decide, by decide, by decide⟩

theorem stripOperator_scalar (v : JVal) (h : isScalarVal v = true) :
    stripOperator v = v := by
  cases v <;> simp [stripOperator, isScalarVal] at h ⊢

theorem dictHas_append (a b : Dict) (k : String) :
    dictHas (a ++ b) k = (dictHas a k || dictHas b k) := by
  induction a with
  | nil => simp [dictHas]
  | cons p a ih =>
    by_cases hp : p.1 = k
    · simp [dictHas, hp]
    · simp [dictHas, hp, ih]

theorem foldl_dictSet_eq_append (l : Dict) :
    ∀ acc : Dict, (∀ p ∈ l, dictHas acc p.1 = false) →
    (l.map Prod.fst).Nodup →
    l.foldl (fun a q => dictSet a q.1 q.2) acc = acc ++ l := by
  induction l with
  | nil => intro acc _ _; simp
  | cons p l ih =>
    intro acc hdisj hnd
    have h1 : dictHas acc p.1 = false := hdisj p (by simp)
    have hstep : dictSet acc p.1 p.2 = acc ++ [p] := by
      simp [dictSet, h1]
    rw [List.foldl_cons, hstep,
      ih (acc ++ [p]) ?hd ?hn]
    · simp
    case hd =>
      intro q hq
      rw [dictHas_append]
      have hq1 : dictHas acc q.1 = false := hdisj q (by simp [hq])
      have hq2 : q.1 ≠ p.1 := by
        simp only [List.map_cons, List.nodup_cons] at hnd
        intro he
        exact hnd.1 (he ▸ List.mem_map_of_mem Prod.fst hq)
      simp [dictHas, hq1, Ne.symm hq2]
    case hn =>
      simp only [List.map_cons, List.nodup_cons] at hnd
      exact hnd.2

theorem normStep_eq_dictSet (acc : Dict) (p : String × JVal)
    (hsc : isScalarVal p.2 = true) (hnn : isNull p.2 = false)
    (hne : eqStr p.2 "" = false) (hk1 : p.1 ≠ "doors") (hk2 : p.1 ≠ "year")
    (hk3 : p.1 ≠ "ano") : normStep acc p = dictSet acc p.1 p.2 := by
  obtain ⟨k, v⟩ := p
  cases v with
  | jobj w => simp [isScalarVal] at hsc
  | jnull => simp [isNull] at hnn
  | jint n => simp_all [normStep]
  | jbool b => simp_all [normStep]
  | jstr s => simp_all [normStep]

/-- C6: normalizing an already-canonical filter map — canonical flat keys,
scalar non-null non-empty values — returns it unchanged. -/
theorem normalize_canonical_idempotent (d : Dict)
    (hk : ∀ p ∈ d, p.1 ∈ canonicalKeys)
    (hv : ∀ p ∈ d, isScalarVal p.2 = true ∧ isNull p.2 = false
      ∧ eqStr p.2 "" = false)
    (hnd : (d.map Prod.fst).Nodup) :
    normalizeLLMFilters d = d := by
  simp only [normalizeLLMFilters]
  have h1 : d.foldl
      (fun acc q => dictSet acc (keySynonym q.1) (stripOperator q.2)) [] = d := by
    rw [List.foldl_ext _ (fun a q => dictSet a q.1 q.2) _
      (fun a q hq => by
        rw [keySynonym_canonical q.1 (hk q hq),
          stripOperator_scalar q.2 (hv q hq).1])]
    rw [foldl_dictSet_eq_append d [] (fun p _ => rfl) hnd]
    simp
  rw [h1]
  have h2 : d.foldl normStep [] = d := by
    rw [List.foldl_ext _ (fun a q => dictSet a q.1 q.2) _
      (fun a q hq => by
        obtain ⟨hq1, hq2, hq3⟩ := canonical_not_special q.1 (hk q hq)
        exact normStep_eq_dictSet a q (hv q hq).1 (hv q hq).2.1
          (hv q hq).2.2 hq1 hq2 hq3)]
    rw [foldl_dictSet_eq_append d [] (fun p _ => rfl) hnd]
    simp
  rw [h2]
  rw [List.filter_eq_self.mpr]
  intro p hp
  simp [(hv p hp).2.1]

theorem normalize_canonical_idempotent_check :
    normalizeLLMFilters
        [("brand_name", jstr "Audi"), ("price_min", jint 30000),
         ("doors_min", jint 4)]
      = [("brand_name", jstr "Audi"), ("price_min", jint 30000),
         ("doors_min", jint 4)] :=
  normalize_canonical_idempotent _ (by decide) (by decide) (by simp)

theorem find?_eqOps_none (w : Dict)
    (hEq : ∀ op ∈ eqOps, dictHas w op = false) :
    List.find? (fun op => dictHas w op) eqOps = none := by
  rw [List.find?_eq_none]
  intro op hop
  simp [hEq op hop]

theorem lowerOf_null (w : Dict)
    (hRg : ∀ op ∈ rangeOps, dictHas w op = false) : lowerOf w = jnull := by
  have h1 : dictHas w "$gte" = false := hRg _ (by decide)
  have h2 : dictHas w "gte" = false := hRg _ (by decide)
  have h3 : dictHas w "min" = false := hRg _ (by decide)
  simp [lowerOf, h1, h2, h3]

theorem upperOf_null (w : Dict)
    (hRg : ∀ op ∈ rangeOps, dictHas w op = false) : upperOf w = jnull := by
  have h1 : dictHas w "$lte" = false := hRg _ (by decide)
  have h2 : dictHas w "lte" = false := hRg _ (by decide)
  have h3 : dictHas w "max" = false := hRg _ (by decide)
  simp [upperOf, h1, h2, h3]

/-- C8 (counterexample): `{"price": {"foo": 1}}` is a known attribute with
an unrecognized *single-key* nested structure; the claim's unwrap clause
predicts `price` (or its sole value) in the output, but the normalizer
drops the attribute entirely — `price` is range-capable, so the single-key
unwrap branch is never reached. -/
theorem single_key_wrapper_not_unwrapped_cex :
    normalizeLLMFilters [("price", jobj [("foo", jint 1)])] = []
    ∧ dictGet (normalizeLLMFilters [("price", jobj [("foo", jint 1)])])
        "price" = none :=
  ⟨rfl, rfl⟩

/-- C8 (amended): a nested value with no recognized equality or range
markers is dropped wholesale whenever it has more than one key (for any
attribute); a single-key unrecognized structure is unwrapped into the
attribute's place only for attributes outside the range-capable set
{price, year_manufacture, mileage, doors} — for range-capable attributes
the structure is dropped even when exactly one key remains. -/
theorem unrecognized_nested_drop_or_unwrap :
    (∀ (k : String) (w : Dict),
        (∀ op ∈ eqOps, dictHas w op = false) →
        (∀ op ∈ rangeOps, dictHas w op = false) →
        1 < w.length →
        normalizeLLMFilters [(k, jobj w)] = [])
    ∧ (∀ (k k1 : String) (v1 : JVal),
        keySynonym k ∉ rangeBases →
        k1 ∉ eqOps → k1 ∉ rangeOps → isNull v1 = false →
        normalizeLLMFilters [(k, jobj [(k1, v1)])] = [(keySynonym k, v1)])
    ∧ (∀ (k : String) (w : Dict),
        k ∈ rangeBases →
        (∀ op ∈ eqOps, dictHas w op = false) →
        (∀ op ∈ rangeOps, dictHas w op = false) →
        normalizeLLMFilters [(k, jobj w)] = []) := by
  refine ⟨?drop, ?unwrap, ?range⟩
  case drop =>
    intro k w hEq hRg hlen
    obtain ⟨q1, w1, rfl⟩ : ∃ q1 w1, w = q1 :: w1 := by
      cases w with
      | nil => simp at hlen
      | cons q1 w1 => exact ⟨q1, w1, rfl⟩
    obtain ⟨q2, w2, rfl⟩ : ∃ q2 w2, w1 = q2 :: w2 := by
      cases w1 with
      | nil => simp at hlen
      | cons q2 w2 => exact ⟨q2, w2, rfl⟩
    have hstrip : stripOperator (jobj (q1 :: q2 :: w2)) = jobj (q1 :: q2 :: w2) := by
      simp [stripOperator, find?_eqOps_none _ hEq]
    have hn1 : isNull (jobj (q1 :: q2 :: w2)) = false := rfl
    have hn2 : eqStr (jobj (q1 :: q2 :: w2)) "" = false := rfl
    have hjn : isNull jnull = true := rfl
    by_cases hkr : keySynonym k ∈ rangeBases
    · simp [normalizeLLMFilters, normStep, dictSet, dictHas, hstrip,
        lowerOf_null _ hRg, upperOf_null _ hRg, hkr, hn1, hn2, hjn]
    · simp [normalizeLLMFilters, normStep, dictSet, dictHas, hstrip,
        lowerOf_null _ hRg, upperOf_null _ hRg, hkr, hn1, hn2, hjn]
  case unwrap =>
    intro k k1 v1 hkr hk1e hk1r hv1
    have hEq : ∀ op ∈ eqOps, dictHas [(k1, v1)] op = false := by
      intro op hop
      have hne : k1 ≠ op := fun he => hk1e (he ▸ hop)
      simp [dictHas, hne]
    have hRg : ∀ op ∈ rangeOps, dictHas [(k1, v1)] op = false := by
      intro op hop
      have hne : k1 ≠ op := fun he => hk1r (he ▸ hop)
      simp [dictHas, hne]
    have hstrip : stripOperator (jobj [(k1, v1)]) = jobj [(k1, v1)] := by
      simp [stripOperator, find?_eqOps_none _ hEq]
    have hn1 : isNull (jobj [(k1, v1)]) = false := rfl
    have hn2 : eqStr (jobj [(k1, v1)]) "" = false := rfl
    have hjn : isNull jnull = true := rfl
    simp [normalizeLLMFilters, normStep, dictSet, dictHas, hstrip,
      lowerOf_null _ hRg, upperOf_null _ hRg, hkr, hv1, hn1, hn2, hjn]
  case range =>
    intro k w hk hEq hRg
    have hsyn : keySynonym k = k := by
      fin_cases hk <;> rfl
    have hkr : keySynonym k ∈ rangeBases := by rw [hsyn]; exact hk
    have hstrip : stripOperator (jobj w) = jobj w := by
      simp [stripOperator, find?_eqOps_none _ hEq]
    have hn1 : isNull (jobj w) = false := rfl
    have hn2 : eqStr (jobj w) "" = false := rfl
    have hjn : isNull jnull = true := rfl
    simp [normalizeLLMFilters, normStep, dictSet, dictHas, hstrip,
      lowerOf_null _ hRg, upperOf_null _ hRg, hkr, hn1, hn2, hjn]

theorem unrecognized_nested_drop_or_unwrap_check :
    normalizeLLMFilters
        [("brand_name", jobj [("foo", jstr "a"), ("bar", jstr "b")])] = []
    ∧ normalizeLLMFilters [("brand_name", jobj [("foo", jstr "Audi")])]
        = [("brand_name", jstr "Audi")]
    ∧ normalizeLLMFilters [("mileage", jobj [("foo", jint 1)])] = [] :=
  ⟨unrecognized_nested_drop_or_unwrap.1 "brand_name" _ (by decide) (by decide)
      (by decide),
   unrecognized_nested_drop_or_unwrap.2.1 "brand_name" "foo" (jstr "Audi")
      (by decide) (by decide) (by decide) rfl,
   unrecognized_nested_drop_or_unwrap.2.2 "mileage" _ (by decide) (by decide)
      (by decide)⟩

/-- C9: an `mcp_request` frame whose (string) action is none of the six
supported actions is answered — the handler returns, it does not raise, so
the receive loop and connection stay usable — with an error envelope having
`success == false` and error code `UNSUPPORTED_ACTION`. -/
theorem unsupported_action_error_envelope
    (message : Dict) (cars : List Car) (genId : String) (inner : Dict)
    (a : String)
    (hdata : dictGet message "data" = some (jobj inner))
    (haction : dictGet inner "action" = some (jstr a))
    (hnot : a ∉ ["search_cars", "get_brands", "get_colors", "get_engines",
      "get_car_details", "get_filters_options"])
    (hrid : dictGet message "request_id" = none
      ∨ dictGet message "request_id" = some jnull
      ∨ ∃ s, dictGet message "request_id" = some (jstr s)) :
    ∃ r : MCPResponse,
      handleMCPRequest genId cars message = HandleResult.resp r
      ∧ r.success = false ∧ r.error_code = some "UNSUPPORTED_ACTION"
      ∧ r.rtype = "mcp_error" := by
  have hside : a ∉ sideActions := by
    intro h
    apply hnot
    simp only [sideActions, List.mem_cons, List.not_mem_nil, or_false] at h
    simp only [List.mem_cons, List.not_mem_nil, or_false]
    tauto
  have hns : (a == "search_cars") = false := by
    have hne : a ≠ "search_cars" := by
      intro he
      exact hnot (by simp [he])
    simp [hne]
  have main : ∀ t : String,
      ∃ r, handleRequest cars [("request_id", jstr t), ("data", jobj inner)]
          = HandleResult.resp r
        ∧ r.success = false ∧ r.error_code = some "UNSUPPORTED_ACTION"
        ∧ r.rtype = "mcp_error" := by
    intro t
    have heq : handleRequest cars
        [("request_id", jstr t), ("data", jobj inner)]
        = HandleResult.resp (mcpError "Ação não suportada"
            "UNSUPPORTED_ACTION"
            (dictGet
              (inner.foldl
                (fun acc p =>
                  if p.1 ∈ ["action", "request_id", "data"] then
                    dictSet acc p.1 p.2
                  else acc)
                [("request_id", jstr t), ("data", jobj inner)])
              "request_id")) := by
      simp [handleRequest, dictGetD, dictGet, haction, eqStr, hns,
        validateMCPRequest, runFields, mcpSpecs, validateBField, hside]
    exact ⟨_, heq, rfl, rfl, rfl⟩
  have hrd : dictGetD message "data" (jobj []) = jobj inner := by
    simp [dictGetD, hdata]
  rcases hrid with h | h | ⟨s, h⟩
  · have hr : dictGetD message "request_id" jnull = jnull := by
      simp [dictGetD, h]
    unfold handleMCPRequest
    rw [hrd, hr]
    simpa [pyTruthy] using main genId
  · have hr : dictGetD message "request_id" jnull = jnull := by
      simp [dictGetD, h]
    unfold handleMCPRequest
    rw [hrd, hr]
    simpa [pyTruthy] using main genId
  · have hr : dictGetD message "request_id" jnull = jstr s := by
      simp [dictGetD, h]
    unfold handleMCPRequest
    rw [hrd, hr]
    by_cases hs : s = ""
    · subst hs
      simpa [pyTruthy] using main genId
    · simpa [pyTruthy, hs] using main s

theorem unsupported_action_error_envelope_check :
    ∃ r : MCPResponse,
      handleMCPRequest "req_gen" []
          [("request_id", jstr "test_123"),
           ("data", jobj [("action", jstr "unsupported_action")])]
        = HandleResult.resp r
      ∧ r.success = false ∧ r.error_code = some "UNSUPPORTED_ACTION"
      ∧ r.rtype = "mcp_error" :=
  unsupported_action_error_envelope _ _ _ _ "unsupported_action" rfl rfl
    (by decide) (Or.inr (Or.inr ⟨"test_123", rfl⟩))

/-!
## C10 helper lemmas
-/

theorem dictGet_dictRemove_self (d : Dict) (k : String) :
    dictGet (dictRemove d k) k = none := by
  induction d with
  | nil => rfl
  | cons p d ih =>
    by_cases hp : p.1 = k
    · simpa [dictRemove, List.filter, hp] using ih
    · simpa [dictRemove, List.filter, hp, dictGet] using ih

theorem dictGet_dictRemove_ne (d : Dict) (k q : String) (h : q ≠ k) :
    dictGet (dictRemove d k) q = dictGet d q := by
  induction d with
  | nil => rfl
  | cons p d ih =>
    by_cases hp : p.1 = k
    · have hpq : p.1 ≠ q := by rw [hp]; exact Ne.symm h
      simpa [dictRemove, List.filter, hp, dictGet, hpq, Ne.symm h] using ih
    · by_cases hq : p.1 = q
      · simp [dictRemove, List.filter, hp, dictGet, hq, h]
      · simpa [dictRemove, List.filter, hp, dictGet, hq, h] using ih

/-- The keys of the `filter_mappings` table plus the free-text `search`. -/
def scalarFilterKeys : List String :=
  ["brand_id", "color_id", "engine_id", "car_model_id", "car_name_id",
   "brand_name", "color_name", "engine_name", "car_model_name", "car_name",
   "fuel_type", "transmission", "search"]

/-- The `range_filters` stages with their projections; `true` marks a
`_min` (inclusive lower) bound. -/
def rangeStageSpecs : List (String × (Car → Int) × Bool) :=
  [("year_manufacture_min", Car.year_manufacture, true),
   ("year_manufacture_max", Car.year_manufacture, false),
   ("year_model_min", Car.year_model, true),
   ("year_model_max", Car.year_model, false),
   ("mileage_min", Car.mileage, true),
   ("mileage_max", Car.mileage, false),
   ("doors_min", Car.doors, true),
   ("doors_max", Car.doors, false),
   ("price_min", Car.price, true),
   ("price_max", Car.price, false)]

theorem applyFilters_eq_stages (f : Dict) (cars : List Car) :
    applyFilters f cars = applyStages f cars := by
  unfold applyFilters
  split
  · rename_i h
    rw [List.isEmpty_iff.mp h]
    rfl
  · rfl

theorem applyStages_scalar_skip (f : Dict) (k : String) (cars : List Car)
    (hk : k ∈ scalarFilterKeys)
    (h : pyTruthy (dictGetD f k jnull) = false) :
    applyStages f cars = applyStages (dictRemove f k) cars := by
  have hself : dictGetD (dictRemove f k) k jnull = jnull := by
    simp [dictGetD, dictGet_dictRemove_self]
  have hC : ∀ (q : String) (P : JVal → Car → Bool) (l : List Car),
      condFilter f q P l = condFilter (dictRemove f k) q P l := by
    intro q P l
    by_cases hq : q = k
    · subst hq
      have hpj : pyTruthy jnull = false := rfl
      simp [condFilter, h, hself, hpj]
    · simp [condFilter, dictGetD, dictGet_dictRemove_ne f k q hq]
  have hR : ∀ (q : String) (proj : Car → Int) (m : Bool) (l : List Car),
      q ∉ scalarFilterKeys →
      rangeFilter f q proj m l = rangeFilter (dictRemove f k) q proj m l := by
    intro q proj m l hq
    have hqk : q ≠ k := fun he => hq (he ▸ hk)
    unfold rangeFilter
    rw [dictGet_dictRemove_ne f k q hqk]
  have hR1 := fun proj m l => hR "year_manufacture_min" proj m l (by decide)
  have hR2 := fun proj m l => hR "year_manufacture_max" proj m l (by decide)
  have hR3 := fun proj m l => hR "year_model_min" proj m l (by decide)
  have hR4 := fun proj m l => hR "year_model_max" proj m l (by decide)
  have hR5 := fun proj m l => hR "mileage_min" proj m l (by decide)
  have hR6 := fun proj m l => hR "mileage_max" proj m l (by decide)
  have hR7 := fun proj m l => hR "doors_min" proj m l (by decide)
  have hR8 := fun proj m l => hR "doors_max" proj m l (by decide)
  have hR9 := fun proj m l => hR "price_min" proj m l (by decide)
  have hR10 := fun proj m l => hR "price_max" proj m l (by decide)
  simp only [applyStages]
  simp only [hC, hR1, hR2, hR3, hR4, hR5, hR6, hR7, hR8, hR9, hR10]

theorem mem_of_mem_condFilter (f : Dict) (k : String) (P : JVal → Car → Bool)
    (l : List Car) (c : Car) (h : c ∈ condFilter f k P l) : c ∈ l := by
  simp only [condFilter] at h
  split at h
  · exact List.mem_of_mem_filter h
  · exact h

theorem mem_of_mem_rangeFilter (f : Dict) (k : String) (proj : Car → Int)
    (m : Bool) (l : List Car) (c : Car) (h : c ∈ rangeFilter f k proj m l) :
    c ∈ l := by
  unfold rangeFilter at h
  cases hd : dictGet f k with
  | none => simp only [hd] at h; exact h
  | some v =>
    simp only [hd] at h
    by_cases hn : isNull v = true
    · rw [if_pos hn] at h; exact h
    · rw [if_neg hn] at h
      cases hp : pyInt v with
      | none => simp only [hp] at h; exact h
      | some b => simp only [hp] at h; exact List.mem_of_mem_filter h

theorem bound_of_mem_rangeFilter (f : Dict) (k : String) (proj : Car → Int)
    (m : Bool) (l : List Car) (c : Car) (b : Int)
    (hlk : dictGet f k = some (jint b)) (h : c ∈ rangeFilter f k proj m l) :
    (if m then b ≤ proj c else proj c ≤ b) := by
  unfold rangeFilter at h
  rw [hlk] at h
  simp only [isNull, pyInt] at h
  rcases List.mem_filter.mp h with ⟨_, hp⟩
  cases m <;> simpa using hp

/-- C10: in `_apply_filters`, a scalar filter (names, ids, fuel_type,
transmission, search) whose value is falsy is silently skipped — removing
the key gives the same result — while a range `_min`/`_max` filter is
applied whenever its value is non-null, so an integral bound of 0 does
constrain the result (every surviving car satisfies the bound). -/
theorem scalar_falsy_skipped_range_applied :
    (∀ (f : Dict) (cars : List Car) (k : String), k ∈ scalarFilterKeys →
      pyTruthy (dictGetD f k jnull) = false →
      applyFilters f cars = applyFilters (dictRemove f k) cars)
    ∧ (∀ (f : Dict) (cars : List Car) (key : String) (proj : Car → Int)
        (m : Bool) (b : Int) (c : Car), (key, proj, m) ∈ rangeStageSpecs →
        dictGet f key = some (jint b) → c ∈ applyFilters f cars →
        (if m then b ≤ proj c else proj c ≤ b)) := by
  constructor
  · intro f cars k hk h
    rw [applyFilters_eq_stages, applyFilters_eq_stages]
    exact applyStages_scalar_skip f k cars hk h
  · intro f cars key proj m b c hspec hlk hmem
    rw [applyFilters_eq_stages] at hmem
    simp only [applyStages] at hmem
    simp only [rangeStageSpecs, List.mem_cons, List.not_mem_nil, or_false,
      Prod.mk.injEq] at hspec
    obtain h | h | h | h | h | h | h | h | h | h := hspec
    · obtain ⟨rfl, rfl, rfl⟩ := h
      replace hmem := mem_of_mem_condFilter _ _ _ _ _ hmem
      iterate 9 replace hmem := mem_of_mem_rangeFilter _ _ _ _ _ _ hmem
      exact bound_of_mem_rangeFilter _ _ _ _ _ _ _ hlk hmem
    · obtain ⟨rfl, rfl, rfl⟩ := h
      replace hmem := mem_of_mem_condFilter _ _ _ _ _ hmem
      iterate 8 replace hmem := mem_of_mem_rangeFilter _ _ _ _ _ _ hmem
      exact bound_of_mem_rangeFilter _ _ _ _ _ _ _ hlk hmem
    · obtain ⟨rfl, rfl, rfl⟩ := h
      replace hmem := mem_of_mem_condFilter _ _ _ _ _ hmem
      iterate 7 replace hmem := mem_of_mem_rangeFilter _ _ _ _ _ _ hmem
      exact bound_of_mem_rangeFilter _ _ _ _ _ _ _ hlk hmem
    · obtain ⟨rfl, rfl, rfl⟩ := h
      replace hmem := mem_of_mem_condFilter _ _ _ _ _ hmem
      iterate 6 replace hmem := mem_of_mem_rangeFilter _ _ _ _ _ _ hmem
      exact bound_of_mem_rangeFilter _ _ _ _ _ _ _ hlk hmem
    · obtain ⟨rfl, rfl, rfl⟩ := h
      replace hmem := mem_of_mem_condFilter _ _ _ _ _ hmem
      iterate 5 replace hmem := mem_of_mem_rangeFilter _ _ _ _ _ _ hmem
      exact bound_of_mem_rangeFilter _ _ _ _ _ _ _ hlk hmem
    · obtain ⟨rfl, rfl, rfl⟩ := h
      replace hmem := mem_of_mem_condFilter _ _ _ _ _ hmem
      iterate 4 replace hmem := mem_of_mem_rangeFilter _ _ _ _ _ _ hmem
      exact bound_of_mem_rangeFilter _ _ _ _ _ _ _ hlk hmem
    · obtain ⟨rfl, rfl, rfl⟩ := h
      replace hmem := mem_of_mem_condFilter _ _ _ _ _ hmem
      iterate 3 replace hmem := mem_of_mem_rangeFilter _ _ _ _ _ _ hmem
      exact bound_of_mem_rangeFilter _ _ _ _ _ _ _ hlk hmem
    · obtain ⟨rfl, rfl, rfl⟩ := h
      replace hmem := mem_of_mem_condFilter _ _ _ _ _ hmem
      iterate 2 replace hmem := mem_of_mem_rangeFilter _ _ _ _ _ _ hmem
      exact bound_of_mem_rangeFilter _ _ _ _ _ _ _ hlk hmem
    · obtain ⟨rfl, rfl, rfl⟩ := h
      replace hmem := mem_of_mem_condFilter _ _ _ _ _ hmem
      iterate 1 replace hmem := mem_of_mem_rangeFilter _ _ _ _ _ _ hmem
      exact bound_of_mem_rangeFilter _ _ _ _ _ _ _ hlk hmem
    · obtain ⟨rfl, rfl, rfl⟩ := h
      replace hmem := mem_of_mem_condFilter _ _ _ _ _ hmem
      exact bound_of_mem_rangeFilter _ _ _ _ _ _ _ hlk hmem

/-- A concrete catalog row used to evaluate the claims. -/
def witnessCar : Car :=
  { id := "c1", brand_id := "b1", color_id := "co1", engine_id := "e1",
    car_model_id := "m1", car_name_id := "n1", brand_name := "Toyota",
    car_name := "Corolla", car_model_name := "Sedan", color_name := "Branco",
    engine_name := "1.6 Flex", fuel_type := "flex",
    transmission := "automatic", year_manufacture := 2023,
    year_model := 2024, mileage := 15000, doors := 4, price := 120000,
    created_at := 1 }

theorem scalar_falsy_skipped_range_applied_check :
    applyFilters [("brand_name", jstr ""), ("price_min", jint 100)]
        [witnessCar]
      = applyFilters
          (dictRemove [("brand_name", jstr ""), ("price_min", jint 100)]
            "brand_name")
          [witnessCar]
    ∧ witnessCar ∉ applyFilters [("price_max", jint 0)] [witnessCar] := by
  constructor
  · exact scalar_falsy_skipped_range_applied.1 _ _ "brand_name" (by decide)
      rfl
  · intro hmem
    have hb := scalar_falsy_skipped_range_applied.2
      [("price_max", jint 0)] [witnessCar] "price_max" Car.price false 0
      witnessCar (by simp [rangeStageSpecs]) rfl hmem
    simp [witnessCar] at hb

/-!
## C2 helper lemmas
-/

theorem dictGet_eq_none_of_not_keys (d : Dict) (q : String)
    (h : ∀ p ∈ d, p.1 ≠ q) : dictGet d q = none := by
  induction d with
  | nil => rfl
  | cons p d ih =>
    simp only [dictGet, if_neg (h p (by simp))]
    exact ih (fun r hr => h r (List.mem_cons_of_mem _ hr))

theorem runFields_keys (specs : List (String × BField × Option JVal))
    (input : Dict) (vd : Dict) (h : runFields specs input = some vd) :
    ∀ p ∈ vd, p.1 ∈ specs.map (fun s => s.1) := by
  induction specs generalizing vd with
  | nil =>
    simp only [runFields] at h
    obtain rfl := Option.some.inj h.symm
    simp
  | cons spec rest ih =>
    simp only [runFields] at h
    cases hd : dictGet input spec.1 with
    | some v =>
        simp only [hd] at h
        cases hw : validateBField spec.2.1 v with
        | none => simp only [hw] at h; exact Option.noConfusion h
        | some w =>
            simp only [hw] at h
            obtain ⟨vd2, hvd2, rfl⟩ := Option.map_eq_some'.mp h
            intro p hp
            rcases List.mem_cons.mp hp with rfl | hp2
            · simp
            · simp only [List.map_cons, List.mem_cons]
              exact Or.inr (ih vd2 hvd2 p hp2)
    | none =>
        simp only [hd] at h
        cases hdf : spec.2.2 with
        | some dflt =>
            simp only [hdf] at h
            obtain ⟨vd2, hvd2, rfl⟩ := Option.map_eq_some'.mp h
            intro p hp
            rcases List.mem_cons.mp hp with rfl | hp2
            · simp
            · simp only [List.map_cons, List.mem_cons]
              exact Or.inr (ih vd2 hvd2 p hp2)
        | none =>
            simp only [hdf] at h
            intro p hp
            simp only [List.map_cons, List.mem_cons]
            exact Or.inr (ih vd h p hp)

theorem runFields_lookup (specs : List (String × BField × Option JVal))
    (input vd : Dict) (q : String) (ty : BField) (dflt : Option JVal)
    (v w : JVal) (hmem : (q, ty, dflt) ∈ specs)
    (hnd : (specs.map (fun s => s.1)).Nodup)
    (hv : dictGet input q = some v) (hval : validateBField ty v = some w)
    (h : runFields specs input = some vd) : dictGet vd q = some w := by
  induction specs generalizing vd with
  | nil => simp at hmem
  | cons spec rest ih =>
    rcases List.mem_cons.mp hmem with heq | hmem2
    · obtain rfl := heq.symm
      simp only [runFields, hv, hval] at h
      obtain ⟨vd2, hvd2, rfl⟩ := Option.map_eq_some'.mp h
      simp [dictGet]
    · have hq : q ∈ rest.map (fun s => s.1) :=
        List.mem_map_of_mem (fun s => s.1) hmem2
      have hne : spec.1 ≠ q := by
        simp only [List.map_cons, List.nodup_cons] at hnd
        intro he
        exact hnd.1 (he ▸ hq)
      have hnd2 : (rest.map (fun s => s.1)).Nodup := by
        simp only [List.map_cons, List.nodup_cons] at hnd
        exact hnd.2
      simp only [runFields] at h
      cases hd : dictGet input spec.1 with
      | some v2 =>
          simp only [hd] at h
          cases hw : validateBField spec.2.1 v2 with
          | none => simp only [hw] at h; exact Option.noConfusion h
          | some w2 =>
              simp only [hw] at h
              obtain ⟨vd2, hvd2, rfl⟩ := Option.map_eq_some'.mp h
              simp only [dictGet, if_neg hne]
              exact ih vd2 hmem2 hnd2 hvd2
      | none =>
          simp only [hd] at h
          cases hdf : spec.2.2 with
          | some dflt2 =>
              simp only [hdf] at h
              obtain ⟨vd2, hvd2, rfl⟩ := Option.map_eq_some'.mp h
              simp only [dictGet, if_neg hne]
              exact ih vd2 hmem2 hnd2 hvd2
          | none =>
              simp only [hdf] at h
              exact ih vd hmem2 hnd2 h

/-- C2 (counterexample): the ordering value `definitely_not_a_field` is in
no allow-list, yet request validation accepts it and the search pipeline
uses it — the request fails only at query evaluation with a `SEARCH_ERROR`
envelope (the handler's generic `except`), not with a validation
rejection.  Hence no allow-list check guards `ordering` before use. -/
theorem ordering_no_allow_list_cex :
    (validateSearchCars
        [("action", jstr "search_cars"), ("brand_name", jstr "Toyota"),
         ("ordering", jstr "definitely_not_a_field")]).isSome = true
    ∧ handleMCPRequest "req_x" [witnessCar]
        [("request_id", jstr "test_123"),
         ("data", jobj [("action", jstr "search_cars"),
                        ("brand_name", jstr "Toyota"),
                        ("ordering", jstr "definitely_not_a_field")])]
      = HandleResult.resp
          (mcpError "Erro na busca de carros" "SEARCH_ERROR" none) :=
  ⟨rfl, rfl⟩

/-- C2 (amended): no allow-list validation is applied to `ordering`.  Any
string supplied as `ordering` passes `SearchCarsRequestSerializer`
unchanged into the validated data; when the key is absent the handler
defaults to `-created_at`; and a supplied ordering is handed as-is to
`order_by`, so an unknown field surfaces only as a `SEARCH_ERROR` from
query execution. -/
theorem ordering_unvalidated_passthrough :
    (∀ (inner vd : Dict) (s : String),
        dictGet inner "ordering" = some (jstr s) →
        dictGet inner "filters" = none →
        dictGet inner "pagination" = none →
        validateSearchCars inner = some vd →
        dictGet vd "ordering" = some (jstr s))
    ∧ (∀ vd : Dict, dictGet vd "ordering" = none →
        resolveOrdering vd = jstr "-created_at")
    ∧ (∀ (cars : List Car) (vd : Dict) (s : String),
        dictGet vd "ordering" = some (jstr s) → (s == "") = false →
        orderBy s (applyFilters (vd.filter (fun p => !(isNull p.2))) cars)
          = none →
        handleSearchCars cars vd
          = mcpError "Erro na busca de carros" "SEARCH_ERROR"
              (dictGet vd "request_id")) := by
  refine ⟨?pass, ?dflt, ?used⟩
  case pass =>
    intro inner vd s hord hfil hpag h
    cases hrun : runFields searchSpecs inner with
    | none =>
        simp only [validateSearchCars, hrun] at h
        exact Option.noConfusion h
    | some vd0 =>
        simp only [validateSearchCars, hrun, hfil, hpag] at h
        have hkeys := runFields_keys _ _ _ hrun
        have hf0 : dictGet vd0 "filters" = none := by
          apply dictGet_eq_none_of_not_keys
          intro p hp he
          have hmem := hkeys p hp
          rw [he] at hmem
          revert hmem
          decide
        have hp0 : dictGet vd0 "pagination" = none := by
          apply dictGet_eq_none_of_not_keys
          intro p hp he
          have hmem := hkeys p hp
          rw [he] at hmem
          revert hmem
          decide
        simp only [hf0, hp0] at h
        obtain rfl := Option.some.inj h
        have hord0 : dictGet vd0 "ordering" = some (jstr s) :=
          runFields_lookup searchSpecs inner vd0 "ordering"
            (BField.charF none true) none (jstr s) (jstr s)
            (by simp [searchSpecs]) (by decide) hord rfl hrun
        repeat' split
        all_goals simp [dictGet_dictSet_ne, hord0]
  case dflt =>
    intro vd h
    simp [resolveOrdering, dictGetD, h]
  case used =>
    intro cars vd s hvd hs horder
    simp [handleSearchCars, resolveOrdering, dictGetD, hvd, pyTruthy, hs,
      horder]

/-- Validated data of a search request carrying an arbitrary ordering. -/
def orderingVD : Dict :=
  [("action", jstr "search_cars"), ("ordering", jstr "zzz"),
   ("page", jint 1), ("page_size", jint 20)]

theorem ordering_unvalidated_passthrough_check :
    dictGet orderingVD "ordering" = some (jstr "zzz")
    ∧ resolveOrdering [] = jstr "-created_at"
    ∧ handleSearchCars [witnessCar] orderingVD
      = mcpError "Erro na busca de carros" "SEARCH_ERROR"
          (dictGet orderingVD "request_id") :=
  ⟨ordering_unvalidated_passthrough.1
      [("action", jstr "search_cars"), ("ordering", jstr "zzz")] orderingVD
      "zzz" rfl rfl rfl rfl,
   ordering_unvalidated_passthrough.2.1 [] rfl,
   ordering_unvalidated_passthrough.2.2 [witnessCar] orderingVD "zzz" rfl
      rfl rfl⟩

/-- C1 (failing input): a `search_cars` frame with top-level
`request_id = "test_123"` is answered with `request_id = None`: for
`search_cars`, `handle_request` validates only the inner `data` dict with
`SearchCarsRequestSerializer`, so the `request_id` that
`_handle_mcp_request` threaded into `full_request_data` never reaches the
response.  The second conjunct shows the contrast: on the non-search path
(`MCPRequestSerializer` over the full request) the same top-level
`request_id` is echoed. -/
theorem search_cars_response_request_id_dropped :
    handleMCPRequest "req_20250101_000000_000000" []
        [("request_id", jstr "test_123"),
         ("data", jobj [("action", jstr "search_cars"),
                        ("filters", jobj [("brand_name", jstr "Toyota")])])]
      = HandleResult.resp
          { rtype := "mcp_response", success := true, request_id := none,
            data := MCPData.page [] 0 1 20 0, error := none,
            error_code := none }
    ∧ handleMCPRequest "req_20250101_000000_000000" []
        [("request_id", jstr "test_123"),
         ("data", jobj [("action", jstr "unsupported_action")])]
      = HandleResult.resp
          (mcpError "Ação não suportada" "UNSUPPORTED_ACTION"
            (some (jstr "test_123"))) :=
  ⟨rfl, rfl⟩
